import Mathlib

/-!
Shallow embedding of parts of the Singular repository:
the gfanlib polyhedral cone state machine (src/gfanlib/gfanlib_zcone.h)
and the modular arithmetic kernels (src/libpolys/coeffs/modulop.h).
-/

namespace SingularModel

/-- Vectors of arbitrary-precision integers, modelling gfanlib ZVector. -/
abbrev ZVector := List Int

/-- Matrices as lists of rows, modelling gfanlib ZMatrix. -/
abbrev ZMatrix := List (List Int)

/-- Preassumption flag PCP_none from gfanlib_zcone.h. -/
def PCP_none : Nat := 0

/-- Preassumption flag PCP_impliedEquationsKnown from gfanlib_zcone.h. -/
def PCP_impliedEquationsKnown : Nat := 1

/-- Preassumption flag PCP_facetsKnown from gfanlib_zcone.h. -/
def PCP_facetsKnown : Nat := 2

/-- The ZCone class of gfanlib_zcone.h: preassumption flags, the mutable
state (knowledge level 0..3), ambient dimension n, multiplicity, linear
forms, the mutable inequality and equation matrices, and the extreme-ray
cache with its validity flag. -/
structure ZCone where
  preassumptions : Nat
  state : Int
  n : Nat
  multiplicity : Int
  linearForms : ZMatrix
  inequalities : ZMatrix
  equations : ZMatrix
  cachedExtremeRays : ZMatrix
  haveExtremeRaysBeenCached : Bool
deriving DecidableEq

/-- Source gfanlib_zcone.h line 156:
areFacetsKnown returns (state>=2)||(preassumptions&PCP_facetsKnown). -/
def ZCone.areFacetsKnown (c : ZCone) : Bool :=
  decide (2 ≤ c.state) || decide (c.preassumptions &&& PCP_facetsKnown ≠ 0)

/-- Source gfanlib_zcone.h line 160:
areImpliedEquationsKnown returns (state>=1)||(preassumptions&PCP_impliedEquationsKnown). -/
def ZCone.areImpliedEquationsKnown (c : ZCone) : Bool :=
  decide (1 ≤ c.state) || decide (c.preassumptions &&& PCP_impliedEquationsKnown ≠ 0)

/-- State-passing form of areFacetsKnown: the const method body contains no
write to any field, so the object after the call is the object before. -/
def ZCone.areFacetsKnownRun (c : ZCone) : Bool × ZCone :=
  (c.areFacetsKnown, c)

/-- State-passing form of areImpliedEquationsKnown: the const method body
contains no write to any field. -/
def ZCone.areImpliedEquationsKnownRun (c : ZCone) : Bool × ZCone :=
  (c.areImpliedEquationsKnown, c)

/-- Dot product of two integer vectors (entrywise product summed). -/
def dotZ (u v : ZVector) : Int :=
  (List.zipWith (· * ·) u v).sum

/-- The all-zero vector of length n. -/
def zeroVector (n : Nat) : ZVector :=
  List.replicate n 0

/-- Entrywise sum of two integer vectors. -/
def addVec (u v : ZVector) : ZVector :=
  List.zipWith (· + ·) u v

/-- Modelled from the spec: the body of ZCone::contains(ZVector) is not under
src/ (gfanlib_zcone.h line 265 only declares it). Per the spec, contains is
RAW-level safe and evaluates every inequality (requiring a nonnegative value)
and every equation (requiring zero) directly, with no state advancement. -/
def contains (c : ZCone) (v : ZVector) : Bool :=
  (c.inequalities.all fun r => decide (0 ≤ dotZ r v)) &&
  (c.equations.all fun e => decide (dotZ e v = 0))

/-- State-passing form of contains: per the spec it performs no state
advancement and touches no mutable field. -/
def containsRun (c : ZCone) (v : ZVector) : Bool × ZCone :=
  (contains c v, c)

/-- Rows of the d-by-d identity matrix. -/
def identityRows (d : Nat) : ZMatrix :=
  (List.range d).map fun i => (List.range d).map fun j => if i = j then (1 : Int) else 0

/-- Modelled from the spec: the body of ZCone::positiveOrthant is not under
src/ (gfanlib_zcone.h line 242 only declares it). The positive orthant of a
given dimension is the cone cut out by the coordinate inequalities x_i >= 0,
with no equations, in the RAW state with no preassumptions and the default
multiplicity 1. -/
def positiveOrthant (d : Nat) : ZCone :=
  { preassumptions := PCP_none
    state := 0
    n := d
    multiplicity := 1
    linearForms := []
    inequalities := identityRows d
    equations := []
    cachedExtremeRays := []
    haveExtremeRaysBeenCached := false }

/-- Modelled from the spec: the bodies of the state-advancing computations of
ZCone (implied-equation extraction, linear-programming redundancy elimination,
canonical row normalization), of extremeRays, of dimension and
dimensionOfLinealitySpace, and of the payloads of quotientLatticeBasis and
semiGroupGeneratorOfRay are not under src/ (gfanlib_zcone.h only declares
them). They are kept abstract here as a bundle of functions the state machine
invokes, so that theorems about the control skeleton hold for every choice of
these computations. -/
structure ConeAlgebra where
  impliedEquationsBasis : ZMatrix → ZMatrix → ZMatrix
  nonRedundantInequalities : ZMatrix → ZMatrix → ZMatrix
  canonicalRows : ZMatrix → ZMatrix
  extremeRaysOf : ZCone → ZMatrix
  dimension : ZCone → Int
  dimensionOfLinealitySpace : ZCone → Int
  quotientBasisPayload : ZCone → ZMatrix
  semiGroupPayload : ZCone → ZVector

/-- Modelled from the spec: transition RAW to EQUATIONS_KNOWN. The equations
are rewritten as a basis of the implied-equation space, unless the
PCP_impliedEquationsKnown preassumption lets the machine skip the
recomputation; the level becomes 1. -/
def applyEquationStep (A : ConeAlgebra) (c : ZCone) : ZCone :=
  if c.preassumptions &&& PCP_impliedEquationsKnown ≠ 0 then { c with state := 1 }
  else { c with equations := A.impliedEquationsBasis c.inequalities c.equations, state := 1 }

/-- Modelled from the spec: transition EQUATIONS_KNOWN to FACETS_KNOWN.
Redundant inequalities are discarded, unless the PCP_facetsKnown
preassumption lets the machine skip the recomputation; the level becomes 2. -/
def applyFacetStep (A : ConeAlgebra) (c : ZCone) : ZCone :=
  if c.preassumptions &&& PCP_facetsKnown ≠ 0 then { c with state := 2 }
  else { c with inequalities := A.nonRedundantInequalities c.inequalities c.equations, state := 2 }

/-- Modelled from the spec: transition FACETS_KNOWN to CANONICAL. Both
matrices are normalized to the canonical row form and the level becomes 3. -/
def applyCanonicalStep (A : ConeAlgebra) (c : ZCone) : ZCone :=
  { c with inequalities := A.canonicalRows c.inequalities,
           equations := A.canonicalRows c.equations,
           state := 3 }

/-- Modelled from the spec: the body of ZCone::ensureStateAsMinimum is not
under src/ (gfanlib_zcone.h line 108 only declares it). Per the spec: if the
current level is below the target, run the advancing computations needed to
reach the target, updating the matrices in place, then set the level to the
target; a call with a target at most the current level is a no-op. -/
def ensureStateAsMinimum (A : ConeAlgebra) (c : ZCone) (s : Int) : ZCone :=
  if c.state < s then
    let c1 := if c.state < 1 ∧ 1 ≤ s then applyEquationStep A c else c
    let c2 := if c1.state < 2 ∧ 2 ≤ s then applyFacetStep A c1 else c1
    let c3 := if c2.state < 3 ∧ 3 ≤ s then applyCanonicalStep A c2 else c2
    { c3 with state := s }
  else c

/-- Modelled from the spec: canonicalize takes the cone to the CANONICAL
level, i.e. ensures state at least 3 (gfanlib_zcone.h line 166 declares it). -/
def canonicalize (A : ConeAlgebra) (c : ZCone) : ZCone :=
  ensureStateAsMinimum A c 3

/-- Modelled from the spec: the body of
ZCone::getUniquePointFromExtremeRays is not under src/ (gfanlib_zcone.h
lines 202-205 only declare it). Per the header documentation it takes a list
of possible extreme rays and adds up those actually contained in the cone. -/
def getUniquePointFromExtremeRays (c : ZCone) (candidates : ZMatrix) : ZVector :=
  candidates.foldl (fun acc r => if contains c r then addVec acc r else acc) (zeroVector c.n)

/-- The reading of getUniquePointFromExtremeRays in which duplicate
candidates are excluded from the sum: the sum ranges over the distinct
contained candidates only. Stated from the claim wording, to be compared
with the definition taken from the source documentation. -/
def getUniquePointFromDistinctRays (c : ZCone) (candidates : ZMatrix) : ZVector :=
  ((candidates.dedup).filter fun r => contains c r).foldl addVec (zeroVector c.n)

/-- Modelled from the spec: the body of ZCone::getUniquePoint is not under
src/ (gfanlib_zcone.h line 201 only declares it). Per the spec it requires
level at least 3 and asserts otherwise; the assertion failure is modelled as
none. On success it sums the extreme rays contained in the cone. -/
def getUniquePoint (A : ConeAlgebra) (c : ZCone) : Option ZVector :=
  if c.state < 3 then none
  else some (getUniquePointFromExtremeRays c (A.extremeRaysOf c))

/-- Modelled from the spec: the body of ZCone::quotientLatticeBasis is not
under src/ (gfanlib_zcone.h line 319 only declares it). Per its header
documentation the implied equations must be known when it is called,
otherwise the routine asserts; the assertion failure is modelled as none. -/
def quotientLatticeBasis (A : ConeAlgebra) (c : ZCone) : Option ZMatrix :=
  if c.areImpliedEquationsKnown then some (A.quotientBasisPayload c) else none

/-- Modelled from the spec: the body of ZCone::semiGroupGeneratorOfRay is
not under src/ (gfanlib_zcone.h line 329 only declares it). Per its header
documentation it asserts if the implied equations have not been computed and
asserts if the cone is not a ray, i.e. if the dimension is not the
lineality-space dimension plus one; assertion failures are modelled as none. -/
def semiGroupGeneratorOfRay (A : ConeAlgebra) (c : ZCone) : Option ZVector :=
  if ¬ c.areImpliedEquationsKnown then none
  else if A.dimension c ≠ A.dimensionOfLinealitySpace c + 1 then none
  else some (A.semiGroupPayload c)

/-- Operations on a cone object, as invoked by a client. Queries that the
spec documents as lazily advancing the state (dimension, getFacets,
findFacets, findImpliedEquations, canonicalize) advance it; RAW-safe queries
and the setters do not touch the state. -/
inductive ConeOp where
  | ensureOp (s : Int)
  | canonicalizeOp
  | findFacetsOp
  | findImpliedEquationsOp
  | dimensionQuery
  | getFacetsQuery
  | containsQuery (v : ZVector)
  | areFacetsKnownQuery
  | areImpliedEquationsKnownQuery
  | getUniquePointQuery
  | setMultiplicityOp (m : Int)
  | setLinearFormsOp (M : ZMatrix)

/-- One client operation applied to a cone: the cone object after the call. -/
def step (A : ConeAlgebra) (c : ZCone) : ConeOp → ZCone
  | ConeOp.ensureOp s => ensureStateAsMinimum A c s
  | ConeOp.canonicalizeOp => canonicalize A c
  | ConeOp.findFacetsOp => ensureStateAsMinimum A c 2
  | ConeOp.findImpliedEquationsOp => ensureStateAsMinimum A c 1
  | ConeOp.dimensionQuery => ensureStateAsMinimum A c 1
  | ConeOp.getFacetsQuery => ensureStateAsMinimum A c 2
  | ConeOp.containsQuery _ => c
  | ConeOp.areFacetsKnownQuery => c
  | ConeOp.areImpliedEquationsKnownQuery => c
  | ConeOp.getUniquePointQuery => c
  | ConeOp.setMultiplicityOp m => { c with multiplicity := m }
  | ConeOp.setLinearFormsOp M => { c with linearForms := M }

/-- A sequence of client operations applied in order. -/
def run (A : ConeAlgebra) (ops : List ConeOp) (c : ZCone) : ZCone :=
  ops.foldl (step A) c

/-- A concrete instance of the abstract cone computations, used to
instantiate universally quantified theorems on concrete inputs. -/
def trivialConeAlgebra : ConeAlgebra :=
  { impliedEquationsBasis := fun _ e => e
    nonRedundantInequalities := fun i _ => i
    canonicalRows := fun m => m
    extremeRaysOf := fun _ => []
    dimension := fun _ => 0
    dimensionOfLinealitySpace := fun _ => 0
    quotientBasisPayload := fun _ => []
    semiGroupPayload := fun _ => [] }

/-- A concrete cone in state 2 used by witnesses. -/
def sampleCone : ZCone :=
  { preassumptions := PCP_none
    state := 2
    n := 1
    multiplicity := 1
    linearForms := []
    inequalities := [[1]]
    equations := []
    cachedExtremeRays := []
    haveExtremeRaysBeenCached := false }

/-- A concrete cone in the RAW state with no preassumptions, used by
witnesses for the assertion claims. -/
def rawCone : ZCone :=
  { preassumptions := PCP_none
    state := 0
    n := 1
    multiplicity := 1
    linearForms := []
    inequalities := [[1]]
    equations := []
    cachedExtremeRays := []
    haveExtremeRaysBeenCached := false }

/-- Interpret a 64-bit unsigned value as a signed two's-complement long. -/
def toSigned64 (u : Nat) : Int :=
  if u < 2 ^ 63 then (u : Int) else (u : Int) - 2 ^ 64

/-- Interpret a signed long as a 64-bit unsigned value (conversion to
unsigned long in C: reduction modulo 2^64). -/
def toUnsigned64 (x : Int) : Nat :=
  (x % (2 ^ 64 : Int)).toNat

/-- Arithmetic right shift by 63 of a 64-bit two's-complement long: every
bit becomes a copy of the sign bit, so the result is -1 for a negative value
and 0 otherwise. Models the C expression x >> 63 on a signed long. -/
def sar63 (x : Int) : Int :=
  if x < 0 then -1 else 0

/-- Bitwise AND of two 64-bit longs in two's-complement representation. -/
def land64 (x y : Int) : Int :=
  toSigned64 (toUnsigned64 x &&& toUnsigned64 y)

/-- Source modulop.h lines 132-142 (the branch-free npAddM, 64-bit case):
res = a + b (unsigned); res -= r->ch (unsigned wraparound);
res += ((long)res >> 63) & r->ch. All unsigned arithmetic is modulo 2^64. -/
def npAddM (a b p : Nat) : Nat :=
  let res : Nat := (a + b) % 2 ^ 64
  let res1 : Nat := (res + (2 ^ 64 - p % 2 ^ 64)) % 2 ^ 64
  (res1 + toUnsigned64 (land64 (sar63 (toSigned64 res1)) (p : Int))) % 2 ^ 64

/-- Source modulop.h lines 154-163 (the branch-free npSubM, 64-bit case):
res = (long)a - (long)b; res += (res >> 63) & r->ch. -/
def npSubM (a b p : Nat) : Int :=
  let res : Int := (a : Int) - (b : Int)
  res + land64 (sar63 res) (p : Int)

/-- Source modulop.h lines 116-120 (the guarded npAddM under
HAVE_GENERIC_ADD): R = a + b; return R >= r->ch ? R - r->ch : R. -/
def npAddMGeneric (a b p : Nat) : Nat :=
  let R : Nat := (a + b) % 2 ^ 64
  if p ≤ R then R - p else R

/-- Source modulop.h lines 126-130 (the guarded npSubM under
HAVE_GENERIC_ADD): (long)a < (long)b ? r->ch - (long)b + (long)a
: (long)a - (long)b. -/
def npSubMGeneric (a b p : Nat) : Int :=
  if (a : Int) < (b : Int) then (p : Int) - (b : Int) + (a : Int)
  else (a : Int) - (b : Int)

/-- Source modulop.h lines 166-169: npNegM returns r->ch - a
unconditionally. -/
def npNegM (a p : Nat) : Int :=
  (p : Int) - (a : Int)

/-- Claim C1: the state-query predicates are pure disjunctions of reached
level and preassumption flag: areImpliedEquationsKnown is true exactly when
the state is at least 1 or the PCP_impliedEquationsKnown bit is set,
areFacetsKnown is true exactly when the state is at least 2 or the
PCP_facetsKnown bit is set, and neither call mutates any field of the cone. -/
theorem C1_state_query_predicates (c : ZCone) :
    (c.areImpliedEquationsKnown = true ↔
      (1 ≤ c.state ∨ c.preassumptions &&& PCP_impliedEquationsKnown ≠ 0))
    ∧ (c.areFacetsKnown = true ↔
      (2 ≤ c.state ∨ c.preassumptions &&& PCP_facetsKnown ≠ 0))
    ∧ c.areImpliedEquationsKnownRun.2 = c
    ∧ c.areFacetsKnownRun.2 = c := by
  refine ⟨?_, ?_, rfl, rfl⟩ <;>
    simp [ZCone.areImpliedEquationsKnown, ZCone.areFacetsKnown]

theorem state_ensure_le (A : ConeAlgebra) (c : ZCone) (s : Int) :
    c.state ≤ (ensureStateAsMinimum A c s).state := by
  unfold ensureStateAsMinimum
  split
  · next h => exact le_of_lt h
  · exact le_refl _

theorem state_step_le (A : ConeAlgebra) (c : ZCone) (op : ConeOp) :
    c.state ≤ (step A c op).state := by
  cases op with
  | ensureOp s => exact state_ensure_le A c s
  | canonicalizeOp => exact state_ensure_le A c 3
  | findFacetsOp => exact state_ensure_le A c 2
  | findImpliedEquationsOp => exact state_ensure_le A c 1
  | dimensionQuery => exact state_ensure_le A c 1
  | getFacetsQuery => exact state_ensure_le A c 2
  | containsQuery v => exact le_refl _
  | areFacetsKnownQuery => exact le_refl _
  | areImpliedEquationsKnownQuery => exact le_refl _
  | getUniquePointQuery => exact le_refl _
  | setMultiplicityOp m => exact le_refl _
  | setLinearFormsOp M => exact le_refl _

theorem state_run_le (A : ConeAlgebra) (ops : List ConeOp) (c : ZCone) :
    c.state ≤ (run A ops c).state := by
  induction ops generalizing c with
  | nil => exact le_refl _
  | cons op rest ih => exact le_trans (state_step_le A c op) (ih (step A c op))

/-- Claim C3: the knowledge level is monotonically non-decreasing: every
single operation leaves the state field at least as large as before, and so
does every sequence of operations; no operation resets it to a lower level. -/
theorem C3_knowledge_level_monotone (A : ConeAlgebra) (c : ZCone) :
    (∀ op : ConeOp, c.state ≤ (step A c op).state)
    ∧ (∀ ops : List ConeOp, c.state ≤ (run A ops c).state) :=
  ⟨fun op => state_step_le A c op, fun ops => state_run_le A ops c⟩

theorem ensure_noop (A : ConeAlgebra) (c : ZCone) (s : Int) (h : s ≤ c.state) :
    ensureStateAsMinimum A c s = c := by
  unfold ensureStateAsMinimum
  rw [if_neg (not_lt.mpr h)]

theorem ensure3_state (A : ConeAlgebra) (c : ZCone) :
    3 ≤ (ensureStateAsMinimum A c 3).state := by
  unfold ensureStateAsMinimum
  split
  · exact le_refl _
  · next h => exact le_of_not_lt h

/-- Claim C4: state advancement is idempotent: ensureStateAsMinimum with a
target at most the current level is a no-op leaving the whole cone object
(inequalities, equations and level included) unchanged, and a second
canonicalize leaves everything exactly as after the first. -/
theorem C4_ensure_canonicalize_idempotent (A : ConeAlgebra) (c : ZCone) (s : Int) :
    (s ≤ c.state → ensureStateAsMinimum A c s = c)
    ∧ canonicalize A (canonicalize A c) = canonicalize A c :=
  ⟨fun h => ensure_noop A c s h,
   ensure_noop A (canonicalize A c) 3 (ensure3_state A c)⟩

theorem C4_witness :
    (1 : Int) ≤ sampleCone.state
    ∧ ensureStateAsMinimum trivialConeAlgebra sampleCone 1 = sampleCone
    ∧ canonicalize trivialConeAlgebra (canonicalize trivialConeAlgebra sampleCone)
        = canonicalize trivialConeAlgebra sampleCone :=
  ⟨by decide,
   (C4_ensure_canonicalize_idempotent trivialConeAlgebra sampleCone 1).1 (by decide),
   (C4_ensure_canonicalize_idempotent trivialConeAlgebra sampleCone 1).2⟩

/-- Claim C6: precondition violations fail the assertion (modelled as none)
rather than returning a value: getUniquePoint below state 3,
quotientLatticeBasis and semiGroupGeneratorOfRay without the implied
equations known, and semiGroupGeneratorOfRay on a cone whose dimension is
not the lineality-space dimension plus one. -/
theorem C6_precondition_assertions (A : ConeAlgebra) (c : ZCone) :
    (c.state < 3 → getUniquePoint A c = none)
    ∧ (c.areImpliedEquationsKnown = false → quotientLatticeBasis A c = none)
    ∧ (c.areImpliedEquationsKnown = false → semiGroupGeneratorOfRay A c = none)
    ∧ (A.dimension c ≠ A.dimensionOfLinealitySpace c + 1 →
        semiGroupGeneratorOfRay A c = none) := by
  refine ⟨fun h => ?_, fun h => ?_, fun h => ?_, fun h => ?_⟩
  · simp [getUniquePoint, h]
  · simp [quotientLatticeBasis, h]
  · simp [semiGroupGeneratorOfRay, h]
  · simp [semiGroupGeneratorOfRay, h]

theorem C6_witness :
    rawCone.state < 3
    ∧ rawCone.areImpliedEquationsKnown = false
    ∧ trivialConeAlgebra.dimension rawCone
        ≠ trivialConeAlgebra.dimensionOfLinealitySpace rawCone + 1
    ∧ getUniquePoint trivialConeAlgebra rawCone = none
    ∧ quotientLatticeBasis trivialConeAlgebra rawCone = none
    ∧ semiGroupGeneratorOfRay trivialConeAlgebra rawCone = none :=
  ⟨by decide, by decide, by decide,
   (C6_precondition_assertions trivialConeAlgebra rawCone).1 (by decide),
   (C6_precondition_assertions trivialConeAlgebra rawCone).2.1 (by decide),
   (C6_precondition_assertions trivialConeAlgebra rawCone).2.2.1 (by decide)⟩

theorem dotZ_zeroVector (r : ZVector) (n : Nat) : dotZ r (zeroVector n) = 0 := by
  induction r generalizing n with
  | nil => simp [dotZ]
  | cons a r ih =>
      cases n with
      | zero => simp [dotZ, zeroVector]
      | succ m =>
          have h := ih m
          simp [dotZ, zeroVector, List.replicate_succ] at h ⊢
          exact h

/-- Claim C5: contains works at RAW level by direct evaluation and never
mutates the cone: it is true exactly when every inequality row has
nonnegative dot product with the vector and every equation row has zero dot
product; the zero vector is contained in every cone; for the positive
orthant of dimension 3 the vector (1,1,1) is contained and (-1,0,0) is not. -/
theorem C5_contains_raw_evaluation :
    (∀ (c : ZCone) (v : ZVector),
        contains c v = true ↔
          ((∀ r ∈ c.inequalities, 0 ≤ dotZ r v) ∧ (∀ e ∈ c.equations, dotZ e v = 0)))
    ∧ (∀ (c : ZCone) (v : ZVector), (containsRun c v).2 = c)
    ∧ (∀ c : ZCone, contains c (zeroVector c.n) = true)
    ∧ contains (positiveOrthant 3) [1, 1, 1] = true
    ∧ contains (positiveOrthant 3) [-1, 0, 0] = false := by
  refine ⟨?_, fun c v => rfl, ?_, by decide, by decide⟩
  · intro c v
    simp [contains, List.all_eq_true]
  · intro c
    simp [contains, List.all_eq_true, dotZ_zeroVector]

theorem addVec_right_comm (z x y : ZVector) :
    addVec (addVec z x) y = addVec (addVec z y) x := by
  induction z generalizing x y with
  | nil => simp [addVec]
  | cons a z ih =>
      cases x with
      | nil => cases y <;> simp [addVec]
      | cons b x =>
          cases y with
          | nil => simp [addVec]
          | cons d y =>
              simp only [addVec, List.zipWith_cons_cons, List.cons.injEq]
              exact ⟨by ring, ih x y⟩

theorem getUniquePointFromExtremeRays_perm (c : ZCone) {l1 l2 : ZMatrix}
    (h : l1.Perm l2) :
    getUniquePointFromExtremeRays c l1 = getUniquePointFromExtremeRays c l2 := by
  unfold getUniquePointFromExtremeRays
  refine h.foldl_eq' (fun x _ y _ z => ?_) _
  by_cases hx : contains c x <;> by_cases hy : contains c y <;>
    simp [hx, hy, addVec_right_comm]

theorem foldl_guard_filter (p : List Int → Bool) (l : ZMatrix) (z : ZVector) :
    l.foldl (fun acc r => if p r then addVec acc r else acc) z
      = (l.filter p).foldl addVec z := by
  induction l generalizing z with
  | nil => rfl
  | cons r l ih =>
      by_cases hr : p r <;> simp [List.filter_cons, hr, ih]

/-- Claim C7 (amended): getUniquePointFromExtremeRays sums every occurrence
of a candidate contained in the cone (it equals the fold of vector addition
over the contained candidates); the result is invariant under permuting the
candidates and under appending a candidate outside the cone, and no input is
an error. -/
theorem C7_unique_point_sum (c : ZCone) (l1 l2 : ZMatrix) (r : ZVector) :
    (getUniquePointFromExtremeRays c l1
        = (l1.filter fun x => contains c x).foldl addVec (zeroVector c.n))
    ∧ (l1.Perm l2 →
        getUniquePointFromExtremeRays c l1 = getUniquePointFromExtremeRays c l2)
    ∧ (contains c r = false →
        getUniquePointFromExtremeRays c (l1 ++ [r])
          = getUniquePointFromExtremeRays c l1) := by
  refine ⟨?_, fun h => getUniquePointFromExtremeRays_perm c h, fun h => ?_⟩
  · unfold getUniquePointFromExtremeRays
    exact foldl_guard_filter (fun x => contains c x) l1 (zeroVector c.n)
  · unfold getUniquePointFromExtremeRays
    rw [List.foldl_append]
    simp [h]

theorem C7_witness :
    List.Perm [[(1 : Int)], [2]] [[(2 : Int)], [1]]
    ∧ contains (positiveOrthant 1) [-1] = false
    ∧ getUniquePointFromExtremeRays (positiveOrthant 1) [[1], [2]]
        = getUniquePointFromExtremeRays (positiveOrthant 1) [[2], [1]]
    ∧ getUniquePointFromExtremeRays (positiveOrthant 1) ([[1], [2]] ++ [[-1]])
        = getUniquePointFromExtremeRays (positiveOrthant 1) [[1], [2]] :=
  ⟨List.Perm.swap [2] [1] [], by decide,
   (C7_unique_point_sum (positiveOrthant 1) [[1], [2]] [[2], [1]] [-1]).2.1
     (List.Perm.swap [2] [1] []),
   (C7_unique_point_sum (positiveOrthant 1) [[1], [2]] [[2], [1]] [-1]).2.2 (by decide)⟩

/-- Claim C7 counterexample: for the positive orthant of dimension 1 and the
candidate list [[1],[1]], the routine counts the duplicated contained
candidate twice and returns [2], while the claimed duplicate-excluding sum
returns [1]; so duplicates are not excluded from the sum. -/
theorem C7_counterexample :
    getUniquePointFromExtremeRays (positiveOrthant 1) [[1], [1]] = [2]
    ∧ getUniquePointFromDistinctRays (positiveOrthant 1) [[1], [1]] = [1]
    ∧ getUniquePointFromExtremeRays (positiveOrthant 1) [[1], [1]]
        ≠ getUniquePointFromDistinctRays (positiveOrthant 1) [[1], [1]] :=
  ⟨by decide, by decide, by decide⟩

theorem land_ones64 (p : Nat) (h : p < 2 ^ 64) : (2 ^ 64 - 1) &&& p = p := by
  apply Nat.eq_of_testBit_eq
  intro i
  rw [Nat.testBit_and, Nat.testBit_two_pow_sub_one]
  by_cases hi : i < 64
  · simp [hi]
  · have hp : p < 2 ^ i :=
      lt_of_lt_of_le h (Nat.pow_le_pow_right (by norm_num) (Nat.le_of_not_lt hi))
    simp [hi, Nat.testBit_lt_two_pow hp]

theorem toUnsigned64_neg_one : toUnsigned64 (-1) = 2 ^ 64 - 1 := by decide

theorem toUnsigned64_zero : toUnsigned64 0 = 0 := by decide

theorem toUnsigned64_ofNat (p : Nat) (h : p < 2 ^ 64) : toUnsigned64 (p : Int) = p := by
  unfold toUnsigned64
  rw [Int.emod_eq_of_lt (by positivity) (by exact_mod_cast h)]
  simp

theorem land64_zero (y : Int) : land64 0 y = 0 := by
  unfold land64
  rw [toUnsigned64_zero]
  simp [toSigned64]

theorem land64_neg_one (p : Nat) (h : p < 2 ^ 63) : land64 (-1) (p : Int) = p := by
  have h64 : p < 2 ^ 64 := lt_trans h (by norm_num)
  unfold land64
  rw [toUnsigned64_neg_one, toUnsigned64_ofNat p h64, land_ones64 p h64]
  unfold toSigned64
  rw [if_pos h]

theorem sarSigned_low (u : Nat) (h : u < 2 ^ 63) : sar63 (toSigned64 u) = 0 := by
  unfold sar63 toSigned64
  rw [if_pos h, if_neg (by omega)]

theorem sarSigned_high (u : Nat) (h1 : 2 ^ 63 ≤ u) (h2 : u < 2 ^ 64) :
    sar63 (toSigned64 u) = -1 := by
  have e63 : (2 : Nat) ^ 63 = 9223372036854775808 := by norm_num
  have e64 : (2 : Nat) ^ 64 = 18446744073709551616 := by norm_num
  have e64i : (2 : Int) ^ 64 = 18446744073709551616 := by norm_num
  rw [e63] at h1
  rw [e64] at h2
  have hts : toSigned64 u = (u : Int) - 18446744073709551616 := by
    unfold toSigned64
    rw [e63, e64i, if_neg (by omega)]
  rw [hts]
  unfold sar63
  rw [if_pos (by omega)]

theorem npSubM_spec (p a b : Nat) (_hp : 0 < p) (hp63 : p < 2 ^ 63)
    (ha : a < p) (hb : b < p) :
    npSubM a b p = ((a : Int) - (b : Int)) % (p : Int)
    ∧ npSubM a b p = npSubMGeneric a b p
    ∧ 0 ≤ npSubM a b p ∧ npSubM a b p < (p : Int) := by
  simp only [npSubM, npSubMGeneric, sar63]
  by_cases hab : (a : Int) - (b : Int) < 0
  · rw [if_pos hab, land64_neg_one p hp63, if_pos (by omega)]
    refine ⟨?_, by omega, by omega, by omega⟩
    rw [← Int.add_emod_self, Int.emod_eq_of_lt (by omega) (by omega)]
  · rw [if_neg hab, land64_zero, add_zero, if_neg (by omega)]
    exact ⟨(Int.emod_eq_of_lt (by omega) (by omega)).symm, rfl, by omega, by omega⟩

theorem npAddM_spec (p a b : Nat) (hp : 0 < p) (hp63 : p < 2 ^ 63)
    (ha : a < p) (hb : b < p) :
    npAddM a b p = (a + b) % p
    ∧ npAddM a b p = npAddMGeneric a b p
    ∧ npAddM a b p < p := by
  have e63 : (2 : Nat) ^ 63 = 9223372036854775808 := by norm_num
  have e64 : (2 : Nat) ^ 64 = 18446744073709551616 := by norm_num
  have hp63n : p < 9223372036854775808 := e63 ▸ hp63
  have habN : a + b < 2 ^ 64 := by rw [e64]; omega
  have hmodab : (a + b) % 2 ^ 64 = a + b := Nat.mod_eq_of_lt habN
  have hmodp : p % 2 ^ 64 = p := Nat.mod_eq_of_lt (by rw [e64]; omega)
  simp only [npAddM, npAddMGeneric, hmodab, hmodp]
  by_cases hcase : p ≤ a + b
  · have hres1 : (a + b + (2 ^ 64 - p)) % 2 ^ 64 = a + b - p := by
      have h2 : a + b + (2 ^ 64 - p) = (a + b - p) + 2 ^ 64 := by rw [e64]; omega
      rw [h2, Nat.add_mod_right, Nat.mod_eq_of_lt (by rw [e64]; omega)]
    rw [hres1, sarSigned_low (a + b - p) (by rw [e63]; omega), land64_zero,
        toUnsigned64_zero, add_zero, Nat.mod_eq_of_lt (by rw [e64]; omega)]
    refine ⟨?_, ?_, by omega⟩
    · rw [Nat.mod_eq_sub_mod hcase, Nat.mod_eq_of_lt (by omega)]
    · rw [if_pos hcase]
  · have hlow : a + b + (2 ^ 64 - p) < 2 ^ 64 := by rw [e64]; omega
    have hres1 : (a + b + (2 ^ 64 - p)) % 2 ^ 64 = a + b + (2 ^ 64 - p) :=
      Nat.mod_eq_of_lt hlow
    rw [hres1, sarSigned_high (a + b + (2 ^ 64 - p)) (by rw [e63, e64]; omega) hlow,
        land64_neg_one p hp63, toUnsigned64_ofNat p (by rw [e64]; omega)]
    have hsum : a + b + (2 ^ 64 - p) + p = (a + b) + 2 ^ 64 := by rw [e64]; omega
    rw [hsum, Nat.add_mod_right, Nat.mod_eq_of_lt habN]
    refine ⟨(Nat.mod_eq_of_lt (by omega)).symm, ?_, by omega⟩
    rw [if_neg (by omega)]

/-- Claim C9: the branch-free shift-and-mask npAddM and npSubM agree with
the guarded HAVE_GENERIC_ADD reference versions and compute the canonical
residue of a+b and a-b modulo p, the result again lying in [0,p). -/
theorem C9_branch_free_add_sub (p a b : Nat)
    (hp : 0 < p) (hp63 : p < 2 ^ 63) (ha : a < p) (hb : b < p) :
    npAddM a b p = (a + b) % p
    ∧ npAddM a b p = npAddMGeneric a b p
    ∧ npAddM a b p < p
    ∧ npSubM a b p = ((a : Int) - (b : Int)) % (p : Int)
    ∧ npSubM a b p = npSubMGeneric a b p
    ∧ 0 ≤ npSubM a b p ∧ npSubM a b p < (p : Int) :=
  ⟨(npAddM_spec p a b hp hp63 ha hb).1,
   (npAddM_spec p a b hp hp63 ha hb).2.1,
   (npAddM_spec p a b hp hp63 ha hb).2.2,
   (npSubM_spec p a b hp hp63 ha hb).1,
   (npSubM_spec p a b hp hp63 ha hb).2.1,
   (npSubM_spec p a b hp hp63 ha hb).2.2.1,
   (npSubM_spec p a b hp hp63 ha hb).2.2.2⟩

theorem C9_witness :
    0 < 32003 ∧ 32003 < 2 ^ 63 ∧ 17 < 32003 ∧ 31999 < 32003
    ∧ (npAddM 17 31999 32003 = (17 + 31999) % 32003
       ∧ npAddM 17 31999 32003 = npAddMGeneric 17 31999 32003
       ∧ npAddM 17 31999 32003 < 32003
       ∧ npSubM 17 31999 32003 = ((17 : Int) - (31999 : Int)) % (32003 : Int)
       ∧ npSubM 17 31999 32003 = npSubMGeneric 17 31999 32003
       ∧ 0 ≤ npSubM 17 31999 32003 ∧ npSubM 17 31999 32003 < (32003 : Int)) :=
  ⟨by decide, by decide, by decide, by decide,
   C9_branch_free_add_sub 32003 17 31999 (by decide) (by decide) (by decide) (by decide)⟩

/-- Claim C10: npNegM computes p - a unconditionally: for 0 < a < p it is
the canonical representative of -a modulo p and npAddM(a, npNegM(a)) = 0,
while npNegM(0) = p lies outside the canonical residue range [0,p). -/
theorem C10_npNegM (p a : Nat) (hp : 0 < p) (hp63 : p < 2 ^ 63) :
    (0 < a → a < p →
       npNegM a p = (-(a : Int)) % (p : Int)
       ∧ 0 < npNegM a p ∧ npNegM a p < (p : Int)
       ∧ npAddM a (npNegM a p).toNat p = 0)
    ∧ (npNegM 0 p = (p : Int) ∧ ¬ npNegM 0 p < (p : Int)) := by
  refine ⟨fun ha0 hap => ⟨?_, by simp [npNegM]; omega, by simp [npNegM]; omega, ?_⟩,
    by simp [npNegM], by simp [npNegM]⟩
  · unfold npNegM
    rw [← Int.add_emod_self, Int.emod_eq_of_lt (by omega) (by omega)]
    omega
  · have htn : (npNegM a p).toNat = p - a := by unfold npNegM; omega
    rw [htn, (npAddM_spec p a (p - a) hp hp63 hap (by omega)).1,
        (by omega : a + (p - a) = p), Nat.mod_self]

theorem C10_witness :
    0 < 32003 ∧ 32003 < 2 ^ 63 ∧ 0 < 17 ∧ 17 < 32003
    ∧ (npNegM 17 32003 = (-(17 : Int)) % (32003 : Int)
       ∧ 0 < npNegM 17 32003 ∧ npNegM 17 32003 < (32003 : Int)
       ∧ npAddM 17 (npNegM 17 32003).toNat 32003 = 0)
    ∧ (npNegM 0 32003 = (32003 : Int) ∧ ¬ npNegM 0 32003 < (32003 : Int)) :=
  ⟨by decide, by decide, by decide, by decide,
   (C10_npNegM 32003 17 (by decide) (by decide)).1 (by decide) (by decide),
   (C10_npNegM 32003 17 (by decide) (by decide)).2⟩

end SingularModel
